import Mathlib

/-!
Verification of the tifs on-KV filesystem engine against its specification.

This file is a shallow embedding, in Lean 4, of the parts of the engine that
the checked properties concern: the scoped-key schema (src/fs/key.rs), the
inode record and its size accounting (src/fs/inode.rs), the transactional
data path (read_data / write_data / clear_data / save_inode / close in
src/fs/transaction.rs), and the FUSE facade pieces (open flags, setattr
merging, readdir synthesis and the advisory-lock state machine in
src/fs/tikv_fs.rs).

Conventions of the embedding:
  * u64 / u32 / usize values are modelled as Nat (no arithmetic in the
    embedded fragments overflows in ways the source relies on); i32 lock
    and open-flag constants are modelled as Int.
  * SystemTime.now() is modelled by an explicit (now : Nat) parameter.
  * Byte buffers are lists of Nat; Vec::resize(n, 0) and
    copy_from_slice are modelled by resizeList and copyAt below.
  * The per-inode KV block map (keys BLOCK(ino, i) for a fixed ino) is an
    association list sorted by block index, so that a range scan returns
    pairs in key order exactly as the KV store does.
  * Fallible operations return Except FsError; a transactional function
    that fails returns only the error, reflecting that the enclosing
    transaction is rolled back and no key is written.
-/

namespace TiFs

/-- File kinds, as in fuser::FileType. -/
inductive FileType where
  | regularFile
  | directory
  | symlink
  | namedPipe
  | blockDevice
  | charDevice
  | socket
deriving Repr, DecidableEq

/-- libc F_RDLCK on linux. -/
def F_RDLCK : Int := 0

/-- libc F_WRLCK on linux. -/
def F_WRLCK : Int := 1

/-- libc F_UNLCK on linux. -/
def F_UNLCK : Int := 2

/-- Advisory-lock state stored on an inode (src/fs/inode.rs). The Rust
HashSet of owners is modelled as a Finset. -/
structure LockState where
  owner_set : Finset Nat
  lk_type : Int
deriving DecidableEq

/-- Cached filesystem statistics (src/fs/reply.rs StatFs). -/
structure StatFs where
  blocks : Nat
  bfree : Nat
  bavail : Nat
  files : Nat
  ffree : Nat
  bsize : Nat
  namelen : Nat
  frsize : Nat
deriving Repr, DecidableEq

/-- The Meta singleton (src/fs/meta.rs). -/
structure Meta where
  inode_next : Nat
  block_size : Nat
  last_stat : Option StatFs
deriving Repr, DecidableEq

/-- fuser::FileAttr fields, times as Nat timestamps. -/
structure FileAttr where
  ino : Nat
  size : Nat
  blocks : Nat
  atime : Nat
  mtime : Nat
  ctime : Nat
  crtime : Nat
  kind : FileType
  perm : Nat
  nlink : Nat
  uid : Nat
  gid : Nat
  rdev : Nat
  blksize : Nat
  flags : Nat
deriving Repr, DecidableEq

/-- The on-store inode record (src/fs/inode.rs). -/
structure Inode where
  file_attr : FileAttr
  lock_state : LockState
  inline_data : Option (List Nat)
  next_fh : Nat
  opened_fh : Nat
deriving DecidableEq

/-- Inode::update_blocks: blocks := ceil(size / block_size). -/
def Inode.update_blocks (i : Inode) (block_size : Nat) : Inode :=
  { i with file_attr :=
      { i.file_attr with blocks := (i.file_attr.size + block_size - 1) / block_size } }

/-- Inode::set_size: set size and recompute blocks. -/
def Inode.set_size (i : Inode) (size block_size : Nat) : Inode :=
  Inode.update_blocks { i with file_attr := { i.file_attr with size := size } } block_size

/-- The error kinds of src/fs/error.rs that the embedded fragments produce. -/
inductive FsError where
  | invalidScopedKey (key : List Nat)
  | fileNotFound (file : String)
  | inodeNotFound (inode : Nat)
  | fhNotFound (ino fh : Nat)
  | blockNotFound (inode block : Nat)
  | invalidLock
  | noSpaceLeft (size : Nat)
deriving Repr, DecidableEq

/-- A data block: raw bytes. -/
abbrev Block := List Nat

/-- block::empty_block, generalized over the configured block size as the
transaction layer uses it. -/
def emptyBlock (block_size : Nat) : Block := List.replicate block_size 0

/-- Vec::resize(n, 0): truncate to n or extend with zero bytes. -/
def resizeList (l : List Nat) (n : Nat) : List Nat :=
  if n ≤ l.length then l.take n else l ++ List.replicate (n - l.length) 0

/-- dst[start .. start+src.len()].copy_from_slice(src). The callers below
always satisfy start + src.length ≤ dst.length, so the result keeps
dst.length bytes. -/
def copyAt (dst : List Nat) (start : Nat) (src : List Nat) : List Nat :=
  dst.take start ++ src ++ dst.drop (start + src.length)

/-- The BLOCK(ino, _) keyspace of one inode: an association list from block
index to block bytes, kept sorted by index so scans are ordered. -/
abbrev BlockStore := List (Nat × Block)

/-- KV get of BLOCK(ino, k). -/
def bget (bs : BlockStore) (k : Nat) : Option Block :=
  match bs with
  | [] => none
  | (k0, v0) :: rest => if k = k0 then some v0 else bget rest k

/-- KV put of BLOCK(ino, k), keeping the store sorted by block index. -/
def bput (bs : BlockStore) (k : Nat) (v : Block) : BlockStore :=
  match bs with
  | [] => [(k, v)]
  | (k0, v0) :: rest =>
    if k < k0 then (k, v) :: (k0, v0) :: rest
    else if k = k0 then (k, v) :: rest
    else (k0, v0) :: bput rest k v

/-- KV delete of BLOCK(ino, k). -/
def bdel (bs : BlockStore) (k : Nat) : BlockStore :=
  bs.filter (fun p => p.1 ≠ k)

/-- KV scan over the half-open key range block_range(ino, lo..hi); on a
sorted store the result is sorted by block index, as the KV scan is. -/
def bscan (bs : BlockStore) (lo hi : Nat) : BlockStore :=
  bs.filter (fun p => lo ≤ p.1 && p.1 < hi)

/-- Txn::INLINE_DATA_THRESHOLD_BASE = 1 << 4. -/
def INLINE_DATA_THRESHOLD_BASE : Nat := 2 ^ 4

/-- Txn::inline_data_threshold = block_size / 16. -/
def inline_data_threshold (block_size : Nat) : Nat :=
  block_size / INLINE_DATA_THRESHOLD_BASE

/-- Txn::check_space_left: NoSpaceLeft when the cached statfs reports
bavail == 0. -/
def check_space_left (meta : Meta) : Except FsError Unit :=
  match meta.last_stat with
  | some stat =>
    if stat.bavail = 0 then .error (.noSpaceLeft (stat.bsize * stat.blocks)) else .ok ()
  | none => .ok ()

/-- Txn::transfer_inline_data_to_block: materialize the inline payload as
BLOCK(ino, 0) zero-padded to block_size and clear inline_data. -/
def transfer_inline_data_to_block (block_size : Nat) (inode : Inode) (bs : BlockStore) :
    Inode × BlockStore :=
  let data := resizeList (inode.inline_data.getD []) block_size
  ({ inode with inline_data := none }, bput bs 0 data)

/-- Txn::write_inline_data. The final save_inode is represented by
returning the updated inode record. -/
def write_inline_data (block_size now : Nat) (inode : Inode) (start : Nat)
    (data : List Nat) : Inode × Nat :=
  let size := data.length
  let inlined := inode.inline_data.getD []
  let inlined := if start + size > inlined.length then resizeList inlined (start + size) else inlined
  let inlined := copyAt inlined start data
  let inode := { inode with file_attr := { inode.file_attr with atime := now, mtime := now, ctime := now } }
  let inode := inode.set_size inlined.length block_size
  let inode := { inode with inline_data := some inlined }
  (inode, size)

/-- Txn::read_inline_data: a zero buffer of the requested size with the
available inline bytes copied over, plus the atime bump. -/
def read_inline_data (now : Nat) (inode : Inode) (start size : Nat) : Inode × List Nat :=
  let inlined := inode.inline_data.getD []
  let data := List.replicate size 0
  let data :=
    if inlined.length > start then
      let to_copy := min size (inlined.length - start)
      copyAt data 0 ((inlined.drop start).take to_copy)
    else data
  ({ inode with file_attr := { inode.file_attr with atime := now } }, data)

/-- The flat_map over the enumerated scan result in Txn::read_data: the
i-th found pair (key, value) contributes the empty blocks of the index
range (start_block + i .. key) followed by value. -/
def stitchBlocks (block_size start_block : Nat) (pairs : List (Nat × Block)) : List Block :=
  (pairs.enum.map (fun p =>
    List.replicate (p.2.1 - (start_block + p.1)) (emptyBlock block_size) ++ [p.2.2])).flatten

/-- The fold in Txn::read_data: concatenate the stitched blocks, slicing
away the leading start % block_size bytes of the first one. -/
def concatBlocks (block_size start : Nat) (chunks : List Block) : List Nat :=
  (chunks.enum.map (fun p => if p.1 = 0 then p.2.drop (start % block_size) else p.2)).flatten

/-- Txn::read_data on the data path of one inode. -/
def read_data (block_size now : Nat) (inode : Inode) (bs : BlockStore) (start : Nat)
    (chunk_size : Option Nat) : Inode × List Nat :=
  if inode.file_attr.size ≤ start then (inode, [])
  else
    let max_size := inode.file_attr.size - start
    let size := min (chunk_size.getD max_size) max_size
    if inode.inline_data.isSome then read_inline_data now inode start size
    else
      let target := start + size
      let start_block := start / block_size
      let end_block := (target + block_size - 1) / block_size
      let pairs := bscan bs start_block end_block
      let data := concatBlocks block_size start (stitchBlocks block_size start_block pairs)
      let data := resizeList data size
      ({ inode with file_attr := { inode.file_attr with atime := now } }, data)

/-- The body of the while loop of Txn::write_data that writes the
remaining data one block at a time after the first block; a partial
trailing block is read-modify-written over the existing block (or a zero
block). The fuel argument only makes the recursion structural: every
iteration of the source loop consumes at least one byte of rest (the
engine always runs with block_size ≥ 1), so fuel = rest.length never runs
out. -/
def writeBlocksGo (block_size : Nat) : Nat → BlockStore → Nat → List Nat → BlockStore
  | _, bs, _, [] => bs
  | 0, bs, _, _ => bs
  | fuel + 1, bs, block_index, a :: l =>
    let rest := a :: l
    let block_index := block_index + 1
    let current_block := rest.take (min block_size rest.length)
    let current_rest := rest.drop (min block_size rest.length)
    let value :=
      if current_block.length < block_size then
        current_block ++ ((bget bs block_index).getD (emptyBlock block_size)).drop current_block.length
      else current_block
    writeBlocksGo block_size fuel (bput bs block_index value) block_index current_rest

/-- The while loop of Txn::write_data over the data remaining after the
first block. -/
def writeBlocks (block_size : Nat) (bs : BlockStore) (block_index : Nat) (rest : List Nat) :
    BlockStore :=
  writeBlocksGo block_size rest.length bs block_index rest

/-- Txn::write_data for one inode: the space check, the inline promotion
and inline write path, and the block read-modify-write path, ending with
the size/blocks/time updates. Success returns the saved inode record, the
updated block keyspace and the byte count written. -/
def write_data (block_size now : Nat) (meta : Meta) (inode : Inode) (bs : BlockStore)
    (start : Nat) (data : List Nat) : Except FsError (Inode × BlockStore × Nat) :=
  match check_space_left meta with
  | .error e => .error e
  | .ok () =>
    let size := data.length
    let target := start + size
    let (inode, bs) :=
      if inode.inline_data.isSome ∧ block_size < target then
        transfer_inline_data_to_block block_size inode bs
      else (inode, bs)
    if (inode.inline_data.isSome ∨ inode.file_attr.size = 0) ∧ target ≤ block_size then
      let (inode, n) := write_inline_data block_size now inode start data
      .ok (inode, bs, n)
    else
      let block_index := start / block_size
      let start_index := start % block_size
      let first_block_size := block_size - start_index
      let first_block := data.take (min first_block_size data.length)
      let rest := data.drop (min first_block_size data.length)
      let start_value := (bget bs block_index).getD (emptyBlock block_size)
      let start_value := copyAt start_value start_index first_block
      let bs := bput bs block_index start_value
      let bs := writeBlocks block_size bs block_index rest
      let inode := { inode with file_attr := { inode.file_attr with atime := now, mtime := now, ctime := now } }
      let inode := inode.set_size (max inode.file_attr.size target) block_size
      .ok (inode, bs, size)

/-- Txn::clear_data: delete every block of [0, ceil(size/B)), set size to 0
and bump atime; the inode record is then saved as returned. -/
def clear_data (block_size now : Nat) (inode : Inode) (bs : BlockStore) :
    Inode × BlockStore × Nat :=
  let end_block := (inode.file_attr.size + block_size - 1) / block_size
  let bs := (List.range end_block).foldl (fun s b => bdel s b) bs
  let clear_size := inode.file_attr.size
  let inode := { inode with file_attr := { inode.file_attr with size := 0, atime := now } }
  (inode, bs, clear_size)

/-- The INODE keyspace: ino to stored record. -/
abbrev InodeStore := Nat → Option Inode

/-- Txn::save_inode: when nlink == 0 and opened_fh == 0 the key is deleted
instead of written. -/
def save_inode (store : InodeStore) (inode : Inode) : InodeStore :=
  if inode.file_attr.nlink = 0 ∧ inode.opened_fh = 0 then
    fun k => if k = inode.file_attr.ino then none else store k
  else
    fun k => if k = inode.file_attr.ino then some inode else store k

/-- Txn::read_inode: InodeNotFound when the key is absent. -/
def read_inode (store : InodeStore) (ino : Nat) : Except FsError Inode :=
  match store ino with
  | some i => .ok i
  | none => .error (.inodeNotFound ino)

/-- A file handle record (src/fs/file_handler.rs). -/
structure FileHandler where
  cursor : Nat
deriving Repr, DecidableEq

/-- The HANDLER keyspace: (ino, fh) to handle record. -/
abbrev FhStore := Nat × Nat → Option FileHandler

/-- Txn::read_fh: FhNotFound when the key is absent. -/
def read_fh (hs : FhStore) (ino fh : Nat) : Except FsError FileHandler :=
  match hs (ino, fh) with
  | some h => .ok h
  | none => .error (.fhNotFound ino fh)

/-- Txn::close: check the handle, delete it, decrement opened_fh and run
save_inode (which may now delete the inode record). -/
def close (hs : FhStore) (store : InodeStore) (ino fh : Nat) :
    Except FsError (FhStore × InodeStore) :=
  match read_fh hs ino fh with
  | .error e => .error e
  | .ok _ =>
    let hs := fun p => if p = (ino, fh) then none else hs p
    match read_inode store ino with
    | .error e => .error e
    | .ok inode =>
      let inode := { inode with opened_fh := inode.opened_fh - 1 }
      .ok (hs, save_inode store inode)

/-- The TiFs::setlk transaction body on a non-directory inode, from
src/fs/tikv_fs.rs. The result Bool is the closure's Ok value: true means
the request completed, false means the facade falls back to the setlkw
loop; in both cases the returned LockState is the stored one. -/
def setlkStep (st : LockState) (lock_owner : Nat) (typ : Int) (sleep : Bool) :
    Except FsError (LockState × Bool) :=
  if typ = F_RDLCK then
    if st.lk_type = F_WRLCK then
      if sleep then .ok (st, false) else .error .invalidLock
    else .ok ({ owner_set := insert lock_owner st.owner_set, lk_type := F_RDLCK }, true)
  else if typ = F_WRLCK then
    if st.lk_type = F_RDLCK then
      if st.owner_set.card = 1 ∧ lock_owner ∈ st.owner_set then
        .ok ({ st with lk_type := F_WRLCK }, true)
      else if sleep then .ok (st, false) else .error .invalidLock
    else if st.lk_type = F_UNLCK then
      .ok ({ owner_set := {lock_owner}, lk_type := F_WRLCK }, true)
    else if st.lk_type = F_WRLCK then
      if sleep then .ok (st, false) else .error .invalidLock
    else .error .invalidLock
  else if typ = F_UNLCK then
    let s := st.owner_set.erase lock_owner
    .ok ({ owner_set := s, lk_type := if s = ∅ then F_UNLCK else st.lk_type }, true)
  else .error .invalidLock

/-- One attempt of the TiFs::setlkw loop: true means acquired, false means
retry with the state unchanged. -/
def setlkwStep (st : LockState) (lock_owner : Nat) (typ : Int) :
    Except FsError (LockState × Bool) :=
  if typ = F_WRLCK then
    if 1 < st.owner_set.card then .ok (st, false)
    else if st.owner_set = ∅ then
      .ok ({ owner_set := insert lock_owner st.owner_set, lk_type := F_WRLCK }, true)
    else if lock_owner ∈ st.owner_set then
      .ok ({ st with lk_type := F_WRLCK }, true)
    else .error .invalidLock
  else if typ = F_RDLCK then
    if st.lk_type = F_WRLCK then .ok (st, false)
    else .ok ({ owner_set := insert lock_owner st.owner_set, lk_type := F_RDLCK }, true)
  else .error .invalidLock

/-- A lock request against one inode: either a setlk transaction or one
setlkw attempt. -/
inductive LockReq where
  | lk (lock_owner : Nat) (typ : Int) (sleep : Bool)
  | lkw (lock_owner : Nat) (typ : Int)
deriving Repr, DecidableEq

/-- The stored lock state after one request: a failed or retried request
leaves the inode as it was (the transaction either rolled back or saved
nothing new). -/
def applyLockReq (st : LockState) (r : LockReq) : LockState :=
  match r with
  | .lk o t s =>
    match setlkStep st o t s with
    | .ok (st2, _) => st2
    | .error _ => st
  | .lkw o t =>
    match setlkwStep st o t with
    | .ok (st2, _) => st2
    | .error _ => st

/-- The stored lock state after a sequence of requests. -/
def runLockReqs (st : LockState) (rs : List LockReq) : LockState :=
  rs.foldl applyLockReq st

/-- The initial lock state of every inode, From<FileAttr> for Inode:
an empty owner set with type F_UNLCK. -/
def initLockState : LockState := { owner_set := ∅, lk_type := F_UNLCK }

/-- The three legal lock-state shapes of the data-model invariant. -/
def goodLock (st : LockState) : Prop :=
  (st.lk_type = F_UNLCK ∧ st.owner_set = ∅) ∨
  (st.lk_type = F_RDLCK ∧ st.owner_set ≠ ∅) ∨
  (st.lk_type = F_WRLCK ∧ st.owner_set.card = 1)

/-- libc O_DIRECT on linux (x86-64). -/
def O_DIRECT : Int := 0x4000

/-- fuser FOPEN_DIRECT_IO reply flag. -/
def FOPEN_DIRECT_IO : Nat := 1

/-- The open-flags computation of TiFs::open: the reply flags start at 0
and FOPEN_DIRECT_IO is or-ed in under the condition written in the source,
direct_io || (flags | O_DIRECT) != 0. -/
def openReplyFlags (direct_io : Bool) (flags : Int) : Nat :=
  if direct_io ∨ Int.lor flags O_DIRECT ≠ 0 then FOPEN_DIRECT_IO else 0

/-- mode::as_file_perm: clear S_ISUID | S_ISGID from the u32 mode and
truncate to u16. -/
def as_file_perm (mode : Nat) : Nat :=
  (mode &&& (0xFFFFFFFF ^^^ (0o4000 ||| 0o2000))) % 2 ^ 16

/-- fuser::TimeOrNow. -/
inductive TimeOrNow where
  | specificTime (t : Nat)
  | now
deriving Repr, DecidableEq

/-- The optional attribute arguments of TiFs::setattr (fh, chgtime and
bkuptime are accepted and ignored by the source). -/
structure SetattrArgs where
  mode : Option Nat
  uid : Option Nat
  gid : Option Nat
  size : Option Nat
  atime : Option TimeOrNow
  mtime : Option TimeOrNow
  ctime : Option Nat
  crtime : Option Nat
  flags : Option Nat
deriving Repr, DecidableEq

/-- The attribute merge of TiFs::setattr, in source order. The source
calls set_size through the inode, which recomputes blocks from the
configured block size. -/
def applySetattr (block_size nowT : Nat) (inode : Inode) (a : SetattrArgs) : Inode :=
  let attr := inode.file_attr
  let attr := { attr with perm := match a.mode with | some m => as_file_perm m | none => attr.perm }
  let attr := { attr with uid := a.uid.getD attr.uid }
  let attr := { attr with gid := a.gid.getD attr.gid }
  let inode := Inode.set_size { inode with file_attr := attr } (a.size.getD attr.size) block_size
  let attr := inode.file_attr
  let attr := { attr with atime := match a.atime with
    | some (.specificTime t) => t
    | some .now => nowT
    | none => nowT }
  let attr := { attr with mtime := match a.mtime with
    | some (.specificTime t) => t
    | some .now => nowT
    | none => nowT }
  let attr := { attr with ctime := a.ctime.getD attr.ctime }
  let attr := { attr with crtime := a.crtime.getD attr.crtime }
  let attr := { attr with flags := a.flags.getD attr.flags }
  { inode with file_attr := attr }

/-- A directory entry as replied to the kernel (src/fs/reply.rs DirItem). -/
structure DirItem where
  ino : Nat
  name : String
  typ : FileType
deriving Repr, DecidableEq

/-- The root inode id (fuser::FUSE_ROOT_ID). -/
def ROOT_INODE : Nat := 1

/-- The entry list built by TiFs::readdir: a synthesized ".." entry (with
the root ino) at offset 0, a synthesized "." entry (with the directory's
own ino) at offset ≤ 1, then the stored directory entries from
offset - min 2 offset onward. -/
def readdirItems (ino : Nat) (offset : Int) (stored : List DirItem) : List DirItem :=
  let dir : List DirItem := []
  let dir := if offset = 0 then dir ++ [⟨ ROOT_INODE, "..", .directory⟩] else dir
  let dir := if offset ≤ 1 then dir ++ [⟨ino, ".", .directory⟩] else dir
  let offset := offset - min 2 offset
  dir ++ stored.drop offset.toNat

/-- u64::to_be_bytes: the eight big-endian bytes of a u64 value. -/
def beBytes8 (n : Nat) : List Nat :=
  [n / 2 ^ 56 % 256, n / 2 ^ 48 % 256, n / 2 ^ 40 % 256, n / 2 ^ 32 % 256,
   n / 2 ^ 24 % 256, n / 2 ^ 16 % 256, n / 2 ^ 8 % 256, n % 256]

/-- u64::from_be_bytes on an 8-byte chunk. -/
def fromBe8 (l : List Nat) : Nat :=
  l.foldl (fun acc b => acc * 256 + b) 0

/-- Whether a byte is a UTF-8 continuation byte (0x80..=0xBF). -/
def utf8Cont (b : Nat) : Bool := 0x80 ≤ b && b ≤ 0xBF

/-- std::str::from_utf8 validation (RFC 3629 well-formed byte sequences):
ASCII, two-byte leads C2..DF, three-byte leads E0/E1..EC,EE,EF/ED with
their restricted first continuations, and four-byte leads F0/F1..F3/F4. -/
def utf8Valid : List Nat → Bool
  | [] => true
  | b :: rest =>
    if b ≤ 0x7F then utf8Valid rest
    else if 0xC2 ≤ b && b ≤ 0xDF then
      match rest with
      | c1 :: r => utf8Cont c1 && utf8Valid r
      | [] => false
    else if b = 0xE0 then
      match rest with
      | c1 :: c2 :: r => (0xA0 ≤ c1 && c1 ≤ 0xBF) && utf8Cont c2 && utf8Valid r
      | _ => false
    else if (0xE1 ≤ b && b ≤ 0xEC) || b = 0xEE || b = 0xEF then
      match rest with
      | c1 :: c2 :: r => utf8Cont c1 && utf8Cont c2 && utf8Valid r
      | _ => false
    else if b = 0xED then
      match rest with
      | c1 :: c2 :: r => (0x80 ≤ c1 && c1 ≤ 0x9F) && utf8Cont c2 && utf8Valid r
      | _ => false
    else if b = 0xF0 then
      match rest with
      | c1 :: c2 :: c3 :: r => (0x90 ≤ c1 && c1 ≤ 0xBF) && utf8Cont c2 && utf8Cont c3 && utf8Valid r
      | _ => false
    else if 0xF1 ≤ b && b ≤ 0xF3 then
      match rest with
      | c1 :: c2 :: c3 :: r => utf8Cont c1 && utf8Cont c2 && utf8Cont c3 && utf8Valid r
      | _ => false
    else if b = 0xF4 then
      match rest with
      | c1 :: c2 :: c3 :: r => (0x80 ≤ c1 && c1 ≤ 0x8F) && utf8Cont c2 && utf8Cont c3 && utf8Valid r
      | _ => false
    else false

/-- src/fs/key.rs ScopedKey. The index name, a &str in the source, is
modelled as its UTF-8 byte sequence. -/
inductive ScopedKey where
  | meta
  | inode (ino : Nat)
  | block (ino block : Nat)
  | fileHandler (ino handler : Nat)
  | fileIndex (parent : Nat) (name : List Nat)
deriving Repr, DecidableEq

/-- ScopedKey::scope: the one-byte discriminator. -/
def ScopedKey.scope : ScopedKey → Nat
  | .meta => 0
  | .inode _ => 1
  | .block _ _ => 2
  | .fileHandler _ _ => 3
  | .fileIndex _ _ => 4

/-- From<ScopedKey> for Key: the discriminator byte followed by the
big-endian u64 fields, then the raw name bytes for an index key. -/
def ScopedKey.encode : ScopedKey → List Nat
  | .meta => [0]
  | .inode ino => 1 :: beBytes8 ino
  | .block ino blk => 2 :: (beBytes8 ino ++ beBytes8 blk)
  | .fileHandler ino handler => 3 :: (beBytes8 ino ++ beBytes8 handler)
  | .fileIndex parent name => 4 :: (beBytes8 parent ++ name)

/-- ScopedKey::parse: split off the discriminator, take the fixed-width
big-endian fields via array_chunks (which requires at least 8 bytes per
field read and ignores any trailing remainder), and for an index key
validate the remaining bytes as UTF-8; every failure is InvalidScopedKey
carrying the whole input. -/
def ScopedKey.parse (key : List Nat) : Except FsError ScopedKey :=
  match key with
  | [] => .error (.invalidScopedKey key)
  | scope :: data =>
    if scope = 0 then .ok .meta
    else if scope = 1 then
      if 8 ≤ data.length then .ok (.inode (fromBe8 (data.take 8)))
      else .error (.invalidScopedKey key)
    else if scope = 2 then
      if 16 ≤ data.length then
        .ok (.block (fromBe8 (data.take 8)) (fromBe8 ((data.drop 8).take 8)))
      else .error (.invalidScopedKey key)
    else if scope = 3 then
      if 16 ≤ data.length then
        .ok (.fileHandler (fromBe8 (data.take 8)) (fromBe8 ((data.drop 8).take 8)))
      else .error (.invalidScopedKey key)
    else if scope = 4 then
      if 8 ≤ data.length then
        if utf8Valid (data.drop 8) then .ok (.fileIndex (fromBe8 (data.take 8)) (data.drop 8))
        else .error (.invalidScopedKey key)
      else .error (.invalidScopedKey key)
    else .error (.invalidScopedKey key)

/-- The keys the source can construct: u64 fields are in range and an
index name is the UTF-8 encoding of a &str. -/
def ScopedKey.wf : ScopedKey → Prop
  | .meta => True
  | .inode ino => ino < 2 ^ 64
  | .block ino blk => ino < 2 ^ 64 ∧ blk < 2 ^ 64
  | .fileHandler ino handler => ino < 2 ^ 64 ∧ handler < 2 ^ 64
  | .fileIndex parent name => parent < 2 ^ 64 ∧ utf8Valid name = true

/-- A freshly created regular-file record as Txn::make_inode builds it:
size 0, blocks 0, nlink 1, no inline data, no open handles. -/
def freshInode (ino block_size : Nat) : Inode :=
  { file_attr :=
      { ino := ino, size := 0, blocks := 0, atime := 0, mtime := 0, ctime := 0, crtime := 0,
        kind := .regularFile, perm := 0o644, nlink := 1, uid := 0, gid := 0, rdev := 0,
        blksize := block_size, flags := 0 },
    lock_state := initLockState,
    inline_data := none,
    next_fh := 0,
    opened_fh := 0 }

/-- A Meta record with no cached statfs. -/
def metaNoStat (block_size : Nat) : Meta :=
  { inode_next := 3, block_size := block_size, last_stat := none }

/-- The setattr argument record with every field absent. -/
def setattrNone : SetattrArgs :=
  { mode := none, uid := none, gid := none, size := none, atime := none, mtime := none,
    ctime := none, crtime := none, flags := none }

/-- A mixed setattr argument record used as concrete witness input. -/
def setattrW : SetattrArgs :=
  { mode := none, uid := none, gid := some 3, size := some 9,
    atime := some (.specificTime 11), mtime := some .now,
    ctime := none, crtime := none, flags := none }

/-- An unlinked inode (nlink 0) with one handle still open. -/
def unlinkedOpenInode : Inode :=
  { freshInode 2 4 with
    file_attr := { (freshInode 2 4).file_attr with nlink := 0 },
    opened_fh := 1 }

/-- An inode keyspace holding only unlinkedOpenInode at ino 2. -/
def unlinkedOpenStore : InodeStore :=
  fun k => if k = 2 then some unlinkedOpenInode else none

/-- A handle keyspace holding only the handle (ino 2, fh 0). -/
def unlinkedOpenFhStore : FhStore :=
  fun p => if p = (2, 0) then some { cursor := 0 } else none

/-- A cached statfs reporting no available blocks. -/
def statZero : StatFs :=
  { blocks := 5, bfree := 0, bavail := 0, files := 1, ffree := 10, bsize := 4,
    namelen := 256, frsize := 0 }

/-- A Meta record whose cached statfs reports bavail == 0. -/
def metaFull : Meta :=
  { inode_next := 3, block_size := 4, last_stat := some statZero }

end TiFs

namespace TiFs

/-- C8: TiFs::open computes the reply flags with
"if self.direct_io || flags | O_DIRECT != 0", a bitwise-or where the
claimed test is a bitwise-and; since O_DIRECT ≠ 0 the condition is true
for every caller, so even with the direct_io mount option off and caller
flags 0 (no O_DIRECT requested) the reply carries FOPEN_DIRECT_IO instead
of the claimed 0. -/
theorem open_reply_flags_always_direct_io :
    openReplyFlags false 0 = FOPEN_DIRECT_IO ∧ FOPEN_DIRECT_IO ≠ 0 := by
  decide

/-- C10: readdir synthesizes ".." (with the root ino 1, whatever the
directory's real parent) as the first entry at offset 0 and "." (with the
directory's own ino) at offsets ≤ 1, followed by the stored entries; from
offset 2 on, only stored entries from position offset - 2 onward are
returned. -/
theorem readdir_synthesized_entries :
    (∀ (ino : Nat) (stored : List DirItem),
      readdirItems ino 0 stored =
        ⟨ ROOT_INODE, "..", .directory⟩ :: ⟨ino, ".", .directory⟩ :: stored) ∧
    (∀ (ino : Nat) (stored : List DirItem),
      readdirItems ino 1 stored = ⟨ino, ".", .directory⟩ :: stored) ∧
    (∀ (ino : Nat) (stored : List DirItem) (offset : Int), 2 ≤ offset →
      readdirItems ino offset stored = stored.drop (offset - 2).toNat) := by
  refine ⟨fun ino stored => ?_, fun ino stored => ?_, fun ino stored offset h => ?_⟩
  · simp [readdirItems]
  · simp [readdirItems]
  · simp only [readdirItems]
    rw [if_neg (by omega), if_neg (by omega)]
    have hm : min 2 offset = 2 := by omega
    rw [hm]
    simp

/-- Witness for C10 at concrete inputs. -/
theorem readdir_synthesized_entries_witness :
    readdirItems 5 0 [⟨7, "x", .regularFile⟩] =
      [⟨ ROOT_INODE, "..", .directory⟩, ⟨5, ".", .directory⟩, ⟨7, "x", .regularFile⟩] ∧
    readdirItems 5 3 [⟨7, "x", .regularFile⟩, ⟨8, "y", .regularFile⟩] =
      [⟨8, "y", .regularFile⟩] := by
  constructor
  · exact readdir_synthesized_entries.1 5 [⟨7, "x", .regularFile⟩]
  · have h := readdir_synthesized_entries.2.2 5 [⟨7, "x", .regularFile⟩, ⟨8, "y", .regularFile⟩]
      3 (by decide)
    simpa using h

/-- C3: Txn::clear_data assigns size = 0 directly instead of going through
set_size, so the stored blocks field keeps its old value: on a file of
size 8 with block_size 4 (blocks = 2) it deletes both data blocks and
sets size to 0, yet blocks stays 2 ≠ ceil(0 / 4) = 0, breaking the
claimed invariant at that commit. -/
theorem clear_data_blocks_stale :
    ((clear_data 4 9 ((freshInode 2 4).set_size 8 4) [(0, [1, 1, 1, 1]), (1, [2, 2, 2, 2])]).1.file_attr.size = 0) ∧
    ((clear_data 4 9 ((freshInode 2 4).set_size 8 4) [(0, [1, 1, 1, 1]), (1, [2, 2, 2, 2])]).2.1 = []) ∧
    ((clear_data 4 9 ((freshInode 2 4).set_size 8 4) [(0, [1, 1, 1, 1]), (1, [2, 2, 2, 2])]).1.file_attr.blocks = 2) ∧
    (clear_data 4 9 ((freshInode 2 4).set_size 8 4) [(0, [1, 1, 1, 1]), (1, [2, 2, 2, 2])]).1.file_attr.blocks ≠ (0 + 4 - 1) / 4 := by
  decide

/-- C2: the inline branch of Txn::write_data tests target ≤ block_size,
not target ≤ block_size / 16: with block_size 16 (inline threshold 1) a
2-byte write at offset 0 of an empty file is stored inline, leaving
inline_data.len() = size = 2 above the threshold — the state the claimed
invariant rules out, and the state write_inline_data's own debug_assert
(start + size ≤ threshold) rejects. -/
theorem write_data_inline_threshold_violated :
    (write_data 16 9 (metaNoStat 16) (freshInode 2 16) [] 0 [1, 2]).map
        (fun r => (r.1.inline_data, r.1.file_attr.size, r.2.2)) =
      .ok (some [1, 2], 2, 2) ∧
    inline_data_threshold 16 = 1 := by
  exact ⟨rfl, rfl⟩

/-- C1: with block_size 4, writing 8 bytes at offset 4 of a fresh file
materializes blocks 1 and 2 and leaves block 0 an unmaterialized hole, and
reading back the exact written range does return the written bytes; but a
12-byte read at offset 0, whose scanned range contains the hole, returns
zeros in place of block 2's bytes: read_data fills the gap before the i-th
found block from position start_block + i instead of from the end of the
previous block, so after one hole every later found block is shifted and
the claimed zero-filled-hole result 0,0,0,0,65,65,65,65,66,66,66,66 is not
produced. -/
theorem read_data_sparse_hole_misaligned :
    (write_data 4 9 (metaNoStat 4) (freshInode 2 4) [] 4 [65, 65, 65, 65, 66, 66, 66, 66]).map
        (fun r => (bget r.2.1 0, bget r.2.1 1, bget r.2.1 2,
          (read_data 4 9 r.1 r.2.1 4 (some 8)).2,
          (read_data 4 9 r.1 r.2.1 0 (some 12)).2)) =
      .ok (none, some [65, 65, 65, 65], some [66, 66, 66, 66],
        [65, 65, 65, 65, 66, 66, 66, 66],
        [0, 0, 0, 0, 65, 65, 65, 65, 0, 0, 0, 0]) ∧
    ([0, 0, 0, 0, 65, 65, 65, 65, 0, 0, 0, 0] : List Nat) ≠
      [0, 0, 0, 0, 65, 65, 65, 65, 66, 66, 66, 66] := by
  exact ⟨rfl, by decide⟩

/-- C9 counterexample: TiFs::setattr maps an absent atime (and mtime) to
SystemTime::now() rather than leaving the stored field unchanged: on an
inode with atime 0 and current time 7, a setattr with every argument
absent stores atime 7. -/
theorem setattr_none_atime_not_preserved :
    ¬ ((applySetattr 4 7 (freshInode 2 4) setattrNone).file_attr.atime =
        (freshInode 2 4).file_attr.atime ∧
      (applySetattr 4 7 (freshInode 2 4) setattrNone).file_attr.mtime =
        (freshInode 2 4).file_attr.mtime) := by
  decide

/-- C9 amended: every attribute argument passed as None leaves the stored
field unchanged for mode, uid, gid, size, ctime, crtime and flags; atime
and mtime are set to the current time when their argument is None or Now
and to the given instant otherwise; a provided size recomputes blocks via
set_size. -/
theorem setattr_merge_amended (block_size nowT : Nat) (inode : Inode) (a : SetattrArgs) :
    (a.mode = none → (applySetattr block_size nowT inode a).file_attr.perm = inode.file_attr.perm) ∧
    (a.uid = none → (applySetattr block_size nowT inode a).file_attr.uid = inode.file_attr.uid) ∧
    (a.gid = none → (applySetattr block_size nowT inode a).file_attr.gid = inode.file_attr.gid) ∧
    (a.size = none → (applySetattr block_size nowT inode a).file_attr.size = inode.file_attr.size) ∧
    (a.ctime = none → (applySetattr block_size nowT inode a).file_attr.ctime = inode.file_attr.ctime) ∧
    (a.crtime = none → (applySetattr block_size nowT inode a).file_attr.crtime = inode.file_attr.crtime) ∧
    (a.flags = none → (applySetattr block_size nowT inode a).file_attr.flags = inode.file_attr.flags) ∧
    ((applySetattr block_size nowT inode a).file_attr.atime =
      match a.atime with
      | some (.specificTime t) => t
      | some .now => nowT
      | none => nowT) ∧
    ((applySetattr block_size nowT inode a).file_attr.mtime =
      match a.mtime with
      | some (.specificTime t) => t
      | some .now => nowT
      | none => nowT) ∧
    (∀ s, a.size = some s →
      (applySetattr block_size nowT inode a).file_attr.size = s ∧
      (applySetattr block_size nowT inode a).file_attr.blocks = (s + block_size - 1) / block_size) := by
  refine ⟨fun h => ?_, fun h => ?_, fun h => ?_, fun h => ?_, fun h => ?_, fun h => ?_,
    fun h => ?_, ?_, ?_, fun s h => ?_⟩
  all_goals try simp [applySetattr, Inode.set_size, Inode.update_blocks, h]
  · rcases ha : a.atime with _ | (t | _) <;>
      simp [applySetattr, Inode.set_size, Inode.update_blocks, ha]
  · rcases hm : a.mtime with _ | (t | _) <;>
      simp [applySetattr, Inode.set_size, Inode.update_blocks, hm]

/-- Witness for the amended C9 theorem at a concrete input: uid absent is
preserved, atime takes a specific instant, a provided size 9 is stored
and blocks becomes ceil(9/4) = 3. -/
theorem setattr_merge_amended_witness :
    (applySetattr 4 7 (freshInode 2 4) setattrW).file_attr.uid = (freshInode 2 4).file_attr.uid ∧
    (applySetattr 4 7 (freshInode 2 4) setattrW).file_attr.atime = 11 ∧
    (applySetattr 4 7 (freshInode 2 4) setattrW).file_attr.mtime = 7 ∧
    (applySetattr 4 7 (freshInode 2 4) setattrW).file_attr.size = 9 ∧
    (applySetattr 4 7 (freshInode 2 4) setattrW).file_attr.blocks = 3 := by
  have h := setattr_merge_amended 4 7 (freshInode 2 4) setattrW
  refine ⟨h.2.1 rfl, ?_, ?_, (h.2.2.2.2.2.2.2.2.2 9 rfl).1, (h.2.2.2.2.2.2.2.2.2 9 rfl).2⟩
  · have := h.2.2.2.2.2.2.2.1
    simpa [setattrW] using this
  · have := h.2.2.2.2.2.2.2.2.1
    simpa [setattrW] using this

/-- C4: save_inode deletes the INODE key exactly when nlink == 0 and
opened_fh == 0 and writes the record otherwise; an inode with nlink == 0
but an open handle therefore persists and read_inode still finds it (so
reads and writes through the handle keep working); and Txn::close on the
last handle of such an inode, which decrements opened_fh to 0 and calls
save_inode, removes the inode record. -/
theorem save_inode_delete_iff :
    (∀ (store : InodeStore) (inode : Inode),
      save_inode store inode inode.file_attr.ino =
        (if inode.file_attr.nlink = 0 ∧ inode.opened_fh = 0 then none else some inode)) ∧
    (∀ (store : InodeStore) (inode : Inode), inode.file_attr.nlink = 0 → 0 < inode.opened_fh →
      read_inode (save_inode store inode) inode.file_attr.ino = .ok inode) ∧
    (∀ (hs : FhStore) (store : InodeStore) (ino fh : Nat) (inode : Inode) (hd : FileHandler),
      hs (ino, fh) = some hd → store ino = some inode → inode.file_attr.ino = ino →
      inode.file_attr.nlink = 0 → inode.opened_fh = 1 →
      ∃ r, close hs store ino fh = .ok r ∧ r.2 ino = none) := by
  refine ⟨fun store inode => ?_, fun store inode hn hf => ?_, ?_⟩
  · by_cases h : inode.file_attr.nlink = 0 ∧ inode.opened_fh = 0 <;>
      simp [save_inode, h]
  · have h : ¬ (inode.file_attr.nlink = 0 ∧ inode.opened_fh = 0) := by omega
    simp [read_inode, save_inode, h]
  · intro hs store ino fh inode hd hfh hstore hino hn h1
    simp only [close, read_fh, hfh, read_inode, hstore]
    refine ⟨_, rfl, ?_⟩
    simp [save_inode, hn, h1, hino]

/-- Witness for C4 at a concrete state: an unlinked inode with one open
handle is kept by save_inode and still readable, and closing that handle
deletes the record. -/
theorem save_inode_delete_iff_witness :
    save_inode unlinkedOpenStore unlinkedOpenInode unlinkedOpenInode.file_attr.ino =
      some unlinkedOpenInode ∧
    read_inode (save_inode unlinkedOpenStore unlinkedOpenInode)
      unlinkedOpenInode.file_attr.ino = .ok unlinkedOpenInode ∧
    (∃ r, close unlinkedOpenFhStore unlinkedOpenStore 2 0 = .ok r ∧ r.2 2 = none) := by
  refine ⟨?_, ?_, ?_⟩
  · have h := save_inode_delete_iff.1 unlinkedOpenStore unlinkedOpenInode
    rw [h]
    decide
  · exact save_inode_delete_iff.2.1 unlinkedOpenStore unlinkedOpenInode rfl (by decide)
  · exact save_inode_delete_iff.2.2 unlinkedOpenFhStore unlinkedOpenStore 2 0
      unlinkedOpenInode { cursor := 0 } rfl rfl rfl rfl rfl

/-- C6: write_data runs check_space_left before touching any key: when the
cached statfs has bavail == 0 it returns the NoSpaceLeft error (mapped to
ENOSPC) carrying bsize * blocks, and since the constructor carries no
state, no block, inode or meta key is written; when the cached statfs is
absent or has bavail > 0, the check passes and write_data returns a
success. -/
theorem write_data_no_space_left
    (block_size now : Nat) (meta : Meta) (inode : Inode) (bs : BlockStore)
    (start : Nat) (data : List Nat) :
    (∀ stat, meta.last_stat = some stat → stat.bavail = 0 →
      write_data block_size now meta inode bs start data =
        .error (.noSpaceLeft (stat.bsize * stat.blocks))) ∧
    ((meta.last_stat = none ∨ ∃ stat, meta.last_stat = some stat ∧ stat.bavail ≠ 0) →
      check_space_left meta = .ok () ∧
      ∃ r, write_data block_size now meta inode bs start data = .ok r) := by
  constructor
  · intro stat hst hb
    simp [write_data, check_space_left, hst, hb]
  · intro h
    have hc : check_space_left meta = .ok () := by
      rcases h with h | ⟨stat, hst, hb⟩ <;> simp [check_space_left, *]
    refine ⟨hc, ?_⟩
    rcases hw : write_data block_size now meta inode bs start data with e | r
    · exfalso
      simp only [write_data, hc] at hw
      repeat' split at hw
      all_goals exact Except.noConfusion hw
    · exact ⟨r, rfl⟩

/-- Witness for C6: with a cached statfs of bavail 0 the write fails with
NoSpaceLeft(20); with no cached statfs it succeeds. -/
theorem write_data_no_space_left_witness :
    write_data 4 9 metaFull (freshInode 2 4) [] 0 [1] =
      .error (.noSpaceLeft (statZero.bsize * statZero.blocks)) ∧
    (check_space_left (metaNoStat 4) = .ok () ∧
      ∃ r, write_data 4 9 (metaNoStat 4) (freshInode 2 4) [] 0 [1] = .ok r) := by
  constructor
  · exact (write_data_no_space_left 4 9 metaFull (freshInode 2 4) [] 0 [1]).1 statZero rfl rfl
  · exact (write_data_no_space_left 4 9 (metaNoStat 4) (freshInode 2 4) [] 0 [1]).2 (Or.inl rfl)

/-- Any state saved by one setlk transaction keeps the lock-state shape
invariant. -/
theorem goodLock_setlkStep {st st2 : LockState} {o : Nat} {t : Int} {sl b : Bool}
    (h : goodLock st) (hs : setlkStep st o t sl = .ok (st2, b)) : goodLock st2 := by
  simp only [setlkStep] at hs
  split_ifs at hs with h1 h2 h3 h4 h5 h6 h7 h8 h9 h10 h11 h12
  all_goals simp only [reduceCtorEq, Except.ok.injEq, Prod.mk.injEq] at hs
  all_goals obtain ⟨rfl, -⟩ := hs
  all_goals try exact h
  · right; left
    exact ⟨rfl, Finset.insert_ne_empty o st.owner_set⟩
  · right; right
    exact ⟨rfl, h6.1⟩
  · right; right
    exact ⟨rfl, Finset.card_singleton o⟩
  · left
    exact ⟨rfl, h12⟩
  · rcases h with ⟨hU, hE⟩ | ⟨hR, hne⟩ | ⟨hW, hc⟩
    · exact absurd (by simp [hE]) h12
    · exact Or.inr (Or.inl ⟨hR, h12⟩)
    · have hmem : o ∉ st.owner_set := by
        intro hm
        obtain ⟨a, ha⟩ := Finset.card_eq_one.mp hc
        apply h12
        rw [ha] at hm ⊢
        rw [Finset.mem_singleton] at hm
        subst hm
        simp
      exact Or.inr (Or.inr ⟨hW, by rw [Finset.erase_eq_self.mpr hmem]; exact hc⟩)

/-- Any state saved by one setlkw attempt keeps the lock-state shape
invariant. -/
theorem goodLock_setlkwStep {st st2 : LockState} {o : Nat} {t : Int} {b : Bool}
    (h : goodLock st) (hs : setlkwStep st o t = .ok (st2, b)) : goodLock st2 := by
  simp only [setlkwStep] at hs
  split_ifs at hs with h1 h2 h3 h4 h5 h6
  all_goals simp only [reduceCtorEq, Except.ok.injEq, Prod.mk.injEq] at hs
  all_goals obtain ⟨rfl, -⟩ := hs
  all_goals try exact h
  · right; right
    refine ⟨rfl, ?_⟩
    rw [h3]
    simp
  · right; right
    refine ⟨rfl, ?_⟩
    have hpos : 0 < st.owner_set.card := Finset.card_pos.mpr ⟨o, h4⟩
    show st.owner_set.card = 1
    omega
  · right; left
    exact ⟨rfl, Finset.insert_ne_empty o st.owner_set⟩

/-- The lock-state shape invariant is preserved by every lock request. -/
theorem goodLock_applyLockReq (st : LockState) (r : LockReq) (h : goodLock st) :
    goodLock (applyLockReq st r) := by
  rcases r with ⟨o, t, sl⟩ | ⟨o, t⟩
  · rcases hr : setlkStep st o t sl with e | ⟨st2, b⟩
    · simpa only [applyLockReq, hr] using h
    · simpa only [applyLockReq, hr] using goodLock_setlkStep h hr
  · rcases hr : setlkwStep st o t with e | ⟨st2, b⟩
    · simpa only [applyLockReq, hr] using h
    · simpa only [applyLockReq, hr] using goodLock_setlkwStep h hr

/-- C5: starting from the initial lock state every inode gets (empty owner
set, UNLCK) and running any sequence of setlk transactions and setlkw
attempts, the stored lock_state always has one of the three legal shapes:
UNLCK with no owner, RDLCK with at least one owner, or WRLCK with exactly
one owner; moreover an UNLCK request that erases the last remaining owner
stores the empty owner set with lk_type reset to UNLCK. -/
theorem lock_state_shapes :
    (∀ rs : List LockReq, goodLock (runLockReqs initLockState rs)) ∧
    (∀ (st : LockState) (o : Nat) (sl : Bool), st.owner_set.erase o = ∅ →
      setlkStep st o F_UNLCK sl = .ok ({ owner_set := ∅, lk_type := F_UNLCK }, true)) := by
  constructor
  · have main : ∀ (rs : List LockReq) (st : LockState), goodLock st →
        goodLock (runLockReqs st rs) := by
      intro rs
      induction rs with
      | nil => exact fun st h => h
      | cons r rs ih => exact fun st h => ih _ (goodLock_applyLockReq st r h)
    exact fun rs => main rs initLockState (Or.inl ⟨rfl, rfl⟩)
  · intro st o sl he
    simp [setlkStep, F_UNLCK, F_RDLCK, F_WRLCK, he]

/-- Witness for C5: a concrete six-request history keeps a legal shape,
and a concrete unlock of the last owner resets the state. -/
theorem lock_state_shapes_witness :
    goodLock (runLockReqs initLockState
      [.lk 1 F_RDLCK false, .lk 2 F_RDLCK false, .lk 2 F_UNLCK false,
       .lk 1 F_WRLCK false, .lkw 3 F_RDLCK, .lk 1 F_UNLCK false]) ∧
    setlkStep { owner_set := {4}, lk_type := F_WRLCK } 4 F_UNLCK false =
      .ok ({ owner_set := ∅, lk_type := F_UNLCK }, true) := by
  constructor
  · exact lock_state_shapes.1 _
  · exact lock_state_shapes.2 { owner_set := {4}, lk_type := F_WRLCK } 4 false (by decide)

/-- u64::from_be_bytes inverts u64::to_be_bytes on u64 values. -/
theorem fromBe8_beBytes8 (n : Nat) (h : n < 2 ^ 64) : fromBe8 (beBytes8 n) = n := by
  simp only [beBytes8, fromBe8, List.foldl]
  norm_num
  omega

/-- Unfolding of parse on an INODE-tagged key. -/
theorem parse_tag1 (data : List Nat) :
    ScopedKey.parse (1 :: data) =
      if 8 ≤ data.length then .ok (.inode (fromBe8 (data.take 8)))
      else .error (.invalidScopedKey (1 :: data)) := rfl

/-- Unfolding of parse on a BLOCK-tagged key. -/
theorem parse_tag2 (data : List Nat) :
    ScopedKey.parse (2 :: data) =
      if 16 ≤ data.length then
        .ok (.block (fromBe8 (data.take 8)) (fromBe8 ((data.drop 8).take 8)))
      else .error (.invalidScopedKey (2 :: data)) := rfl

/-- Unfolding of parse on a HANDLER-tagged key. -/
theorem parse_tag3 (data : List Nat) :
    ScopedKey.parse (3 :: data) =
      if 16 ≤ data.length then
        .ok (.fileHandler (fromBe8 (data.take 8)) (fromBe8 ((data.drop 8).take 8)))
      else .error (.invalidScopedKey (3 :: data)) := rfl

/-- Unfolding of parse on an INDEX-tagged key. -/
theorem parse_tag4 (data : List Nat) :
    ScopedKey.parse (4 :: data) =
      if 8 ≤ data.length then
        if utf8Valid (data.drop 8) then
          .ok (.fileIndex (fromBe8 (data.take 8)) (data.drop 8))
        else .error (.invalidScopedKey (4 :: data))
      else .error (.invalidScopedKey (4 :: data)) := rfl

/-- Taking the first field of an encoded payload returns its 8 bytes. -/
theorem beBytes8_take_self (n : Nat) : (beBytes8 n).take 8 = beBytes8 n := rfl

/-- Taking 8 bytes of a payload that starts with an encoded u64. -/
theorem beBytes8_append_take (n : Nat) (l : List Nat) :
    (beBytes8 n ++ l).take 8 = beBytes8 n := rfl

/-- Dropping the 8 bytes of a leading encoded u64. -/
theorem beBytes8_append_drop (n : Nat) (l : List Nat) :
    (beBytes8 n ++ l).drop 8 = l := rfl

/-- C7: parsing the byte encoding of any constructible ScopedKey (u64
fields in range; an index name that is valid UTF-8) returns the identical
key, and parse fails with InvalidScopedKey on the empty byte string, on an
unknown discriminator byte, and on a payload shorter than the
discriminator's fixed-width fields (8 bytes for INODE and INDEX, 16 for
BLOCK and HANDLER). -/
theorem scoped_key_parse_roundtrip :
    (∀ k : ScopedKey, k.wf → ScopedKey.parse k.encode = .ok k) ∧
    ScopedKey.parse [] = .error (.invalidScopedKey []) ∧
    (∀ (t : Nat) (data : List Nat), 4 < t →
      ScopedKey.parse (t :: data) = .error (.invalidScopedKey (t :: data))) ∧
    (∀ data : List Nat, data.length < 8 →
      ScopedKey.parse (1 :: data) = .error (.invalidScopedKey (1 :: data)) ∧
      ScopedKey.parse (4 :: data) = .error (.invalidScopedKey (4 :: data))) ∧
    (∀ data : List Nat, data.length < 16 →
      ScopedKey.parse (2 :: data) = .error (.invalidScopedKey (2 :: data)) ∧
      ScopedKey.parse (3 :: data) = .error (.invalidScopedKey (3 :: data))) := by
  refine ⟨?_, rfl, ?_, ?_, ?_⟩
  · intro k hw
    cases k with
    | meta => rfl
    | inode ino =>
      show ScopedKey.parse (1 :: beBytes8 ino) = _
      rw [parse_tag1, if_pos (by simp [beBytes8]), beBytes8_take_self,
        fromBe8_beBytes8 ino hw]
    | block ino blk =>
      show ScopedKey.parse (2 :: (beBytes8 ino ++ beBytes8 blk)) = _
      rw [parse_tag2, if_pos (by simp [beBytes8]), beBytes8_append_take,
        beBytes8_append_drop, beBytes8_take_self,
        fromBe8_beBytes8 ino hw.1, fromBe8_beBytes8 blk hw.2]
    | fileHandler ino hd =>
      show ScopedKey.parse (3 :: (beBytes8 ino ++ beBytes8 hd)) = _
      rw [parse_tag3, if_pos (by simp [beBytes8]), beBytes8_append_take,
        beBytes8_append_drop, beBytes8_take_self,
        fromBe8_beBytes8 ino hw.1, fromBe8_beBytes8 hd hw.2]
    | fileIndex parent name =>
      show ScopedKey.parse (4 :: (beBytes8 parent ++ name)) = _
      rw [parse_tag4, if_pos (by simp [beBytes8]), beBytes8_append_drop,
        if_pos hw.2, beBytes8_append_take, fromBe8_beBytes8 parent hw.1]
  · intro t data ht
    simp only [ScopedKey.parse]
    rw [if_neg (by omega), if_neg (by omega), if_neg (by omega), if_neg (by omega),
      if_neg (by omega)]
  · intro data h
    constructor
    · rw [parse_tag1, if_neg (by omega)]
    · rw [parse_tag4, if_neg (by omega)]
  · intro data h
    constructor
    · rw [parse_tag2, if_neg (by omega)]
    · rw [parse_tag3, if_neg (by omega)]

/-- Witness for C7 at concrete keys: a round-tripped index key (name
"foo") and block key, an unknown tag 9, and a BLOCK payload of 3 bytes. -/
theorem scoped_key_parse_roundtrip_witness :
    ScopedKey.parse (ScopedKey.encode (.fileIndex 2 [102, 111, 111])) =
      .ok (.fileIndex 2 [102, 111, 111]) ∧
    ScopedKey.parse (ScopedKey.encode (.block 3 5)) = .ok (.block 3 5) ∧
    ScopedKey.parse [9, 0] = .error (.invalidScopedKey [9, 0]) ∧
    ScopedKey.parse [2, 0, 0, 0] = .error (.invalidScopedKey [2, 0, 0, 0]) := by
  refine ⟨?_, ?_, ?_, ?_⟩
  · exact scoped_key_parse_roundtrip.1 (.fileIndex 2 [102, 111, 111]) ⟨by norm_num, by decide⟩
  · exact scoped_key_parse_roundtrip.1 (.block 3 5) ⟨by norm_num, by norm_num⟩
  · exact scoped_key_parse_roundtrip.2.2.1 9 [0] (by norm_num)
  · exact (scoped_key_parse_roundtrip.2.2.2.2 [0, 0, 0] (by norm_num)).1

end TiFs
